import Mathlib

/-!
# Verification of the storage library core

A shallow embedding, in Lean, of the core of the `storage` Python library
(`src/py/storage`): the key-value backends (`backends/__init__.py`,
`backends/memory.py`, `backends/dbm.py`), the index subsystem (`index.py`)
and the object storage (`objects.py`), together with proofs and refutations
of the specified properties.

Python dictionaries (`self.values` of `MemoryBackend`, the forward/backward
stores of `IndexStorage`, the `_updates` map of `StoredObject`, the object
cache of `ObjectStorage`) are modelled as association lists with
insertion-order semantics: setting an existing key replaces its first
binding in place, setting a fresh key appends it, deleting drops the
binding.
-/

namespace Storage

/-- Python `dict.get(k)` / `self.values.get(key)`: the value bound to the
first occurrence of key `k`, if any. -/
def alGet {κ α : Type} [DecidableEq κ] : List (κ × α) → κ → Option α
  | [], _ => none
  | (k', v) :: rest, k => if k' = k then some v else alGet rest k

/-- Python `d[k] = v`: replace the binding in place if the key is present,
append it otherwise (dict insertion-order semantics). -/
def alSet {κ α : Type} [DecidableEq κ] : List (κ × α) → κ → α → List (κ × α)
  | [], k, v => [(k, v)]
  | (k', v') :: rest, k, v =>
      if k' = k then (k, v) :: rest else (k', v') :: alSet rest k v

/-- Python `del d[k]`: drop the binding of key `k`. -/
def alRemove {κ α : Type} [DecidableEq κ] : List (κ × α) → κ → List (κ × α)
  | [], _ => []
  | (k', v') :: rest, k =>
      if k' = k then alRemove rest k else (k', v') :: alRemove rest k

/-- Python `k in d`: key membership. -/
def alHas {κ α : Type} [DecidableEq κ] (d : List (κ × α)) (k : κ) : Bool :=
  (alGet d k).isSome

/-- Python `d.keys()`: the keys, in insertion order. -/
def alKeys {κ α : Type} (d : List (κ × α)) : List κ :=
  d.map (fun p => p.1)

theorem alGet_alSet_self {κ α : Type} [DecidableEq κ] (d : List (κ × α)) (k : κ) (v : α) :
    alGet (alSet d k v) k = some v := by
  induction d with
  | nil => simp [alSet, alGet]
  | cons p rest ih =>
      obtain ⟨k', v'⟩ := p
      by_cases h : k' = k <;> simp [alSet, alGet, h, ih]

theorem alGet_alSet_ne {κ α : Type} [DecidableEq κ] (d : List (κ × α)) (k k' : κ) (v : α)
    (h : k' ≠ k) : alGet (alSet d k v) k' = alGet d k' := by
  induction d with
  | nil => simp [alSet, alGet, Ne.symm h]
  | cons p rest ih =>
      obtain ⟨k₀, v₀⟩ := p
      by_cases h₀ : k₀ = k
      · subst h₀
        simp [alSet, alGet, Ne.symm h]
      · by_cases h₁ : k₀ = k' <;> simp [alSet, alGet, h, h₀, h₁, ih]

theorem alGet_alRemove_self {κ α : Type} [DecidableEq κ] (d : List (κ × α)) (k : κ) :
    alGet (alRemove d k) k = none := by
  induction d with
  | nil => simp [alRemove, alGet]
  | cons p rest ih =>
      obtain ⟨k₀, v₀⟩ := p
      by_cases h : k₀ = k <;> simp [alRemove, alGet, h, ih]

theorem alGet_alRemove_ne {κ α : Type} [DecidableEq κ] (d : List (κ × α)) (k k' : κ)
    (h : k' ≠ k) : alGet (alRemove d k) k' = alGet d k' := by
  induction d with
  | nil => simp [alRemove]
  | cons p rest ih =>
      obtain ⟨k₀, v₀⟩ := p
      by_cases h₀ : k₀ = k
      · subst h₀
        simp [alRemove, alGet, Ne.symm h, ih]
      · by_cases h₁ : k₀ = k' <;> simp [alRemove, alGet, h, h₀, h₁, ih]

theorem alRemove_of_absent {κ α : Type} [DecidableEq κ] (d : List (κ × α)) (k : κ)
    (h : alGet d k = none) : alRemove d k = d := by
  induction d with
  | nil => simp [alRemove]
  | cons p rest ih =>
      obtain ⟨k₀, v₀⟩ := p
      by_cases h₀ : k₀ = k
      · simp [alGet, h₀] at h
      · simp [alGet, h₀] at h
        simp [alRemove, h₀, ih h]

theorem mem_alSet {κ α : Type} [DecidableEq κ] (d : List (κ × α)) (k : κ) (v : α)
    (p : κ × α) (hp : p ∈ alSet d k v) : p = (k, v) ∨ p ∈ d := by
  induction d with
  | nil => simp [alSet] at hp; simp [hp]
  | cons q rest ih =>
      obtain ⟨k₀, v₀⟩ := q
      by_cases h₀ : k₀ = k
      · simp [alSet, h₀] at hp
        rcases hp with hp | hp
        · exact Or.inl hp
        · exact Or.inr (List.mem_cons_of_mem _ hp)
      · simp [alSet, h₀] at hp
        rcases hp with hp | hp
        · exact Or.inr (by simp [hp])
        · rcases ih hp with h | h
          · exact Or.inl h
          · exact Or.inr (List.mem_cons_of_mem _ h)

theorem alGet_eq_none_of_all {κ α : Type} [DecidableEq κ] (d : List (κ × α))
    (h : ∀ k, alGet d k = none) : d = [] := by
  cases d with
  | nil => rfl
  | cons p rest =>
      obtain ⟨k₀, v₀⟩ := p
      have := h k₀
      simp [alGet] at this

theorem alHas_iff_mem_alKeys {κ α : Type} [DecidableEq κ] (d : List (κ × α)) (k : κ) :
    alHas d k = true ↔ k ∈ alKeys d := by
  induction d with
  | nil => simp [alHas, alGet, alKeys]
  | cons p rest ih =>
      obtain ⟨k₀, v₀⟩ := p
      by_cases h : k₀ = k
      · simp [alHas, alGet, alKeys, h]
      · simp only [alHas, alGet, alKeys, List.map_cons, List.mem_cons, if_neg h] at ih ⊢
        rw [ih]
        constructor
        · exact Or.inr
        · rintro (hk | hk)
          · exact (h hk.symm).elim
          · exact hk

/-!
## Backend serialization (`core.py`, `backends/__init__.py`)

`StorageBackend._serialize` runs keys (and, for the DBM backend, values)
through `asJSON`, i.e. `json.dumps` (`core.py:16-17`); `_deserialize` is
`json.loads` without restoration (`backends/__init__.py:193-202`).  The keys
and data appearing in the claims are plain strings with no characters that
JSON needs to escape, for which `json.dumps` wraps the text in double
quotes and `json.loads` strips them; `jsonString`/`unJsonString` model
exactly that pair.
-/

/-- `json.dumps` on a string without escape-needing characters: wrap in
double quotes. -/
def jsonString (s : String) : String :=
  String.mk ('"' :: s.data ++ ['"'])

/-- `json.loads` on the `json.dumps` image of such a string: strip the two
quotes. -/
def unJsonString (s : String) : String :=
  String.mk (s.data.drop 1).dropLast

theorem unJsonString_jsonString (s : String) : unJsonString (jsonString s) = s := by
  show String.mk ((('"' :: s.data ++ ['"']).drop 1).dropLast) = s
  simp [List.dropLast_concat]

theorem jsonString_injective (s t : String) (h : jsonString s = jsonString t) : s = t := by
  have := congrArg unJsonString h
  rwa [unJsonString_jsonString, unJsonString_jsonString] at this

/-!
## MemoryBackend (`backends/memory.py`)

`MemoryBackend` wraps a Python dictionary `self.values`; keys are converted
to JSON (`key = self._serialize(key)`) while values are stored as-is.
-/

/-- The `self.values` dictionary of a `MemoryBackend`, mapping serialized
keys to stored values (values are kept as-is, `memory.py:5-6`). -/
abbrev MemoryValues : Type := List (String × String)

/-- `MemoryBackend.add` (memory.py:12-14): `self.values[self._serialize(key)] = data`. -/
def memoryAdd (values : MemoryValues) (key data : String) : MemoryValues :=
  alSet values (jsonString key) data

/-- `MemoryBackend.update` (memory.py:16-18): `self.values[self._serialize(key)] = data`. -/
def memoryUpdate (values : MemoryValues) (key data : String) : MemoryValues :=
  alSet values (jsonString key) data

/-- `MemoryBackend.remove` (memory.py:20-22): `del self.values[self._serialize(key)]`. -/
def memoryRemove (values : MemoryValues) (key : String) : MemoryValues :=
  alRemove values (jsonString key)

/-- `MemoryBackend.has` (memory.py:27-29): `self._serialize(key) in self.values`. -/
def memoryHas (values : MemoryValues) (key : String) : Bool :=
  alHas values (jsonString key)

/-- `MemoryBackend.get` (memory.py:31-33): `self.values.get(self._serialize(key))`. -/
def memoryGet (values : MemoryValues) (key : String) : Option String :=
  alGet values (jsonString key)

/-!
## DBMBackend (`backends/dbm.py`)

`DBMBackend.add` and `DBMBackend.update` both serialize key and data
(`key, data = self._serialize(key, data)`) and then call
`self._tryAdd(key, data)`, whose effect on success is
`self.values[key] = data` (dbm.py:35-68); the retry loop around the store
only concerns transient `dbm.error` failures of the on-disk file and is not
part of the functional model.  `get` deserializes the stored data
(dbm.py:83-89), `remove` deletes the serialized key (dbm.py:70-72).
-/

/-- The DBM file contents: serialized keys mapped to serialized data. -/
abbrev DBMValues : Type := List (String × String)

/-- `DBMBackend.add` (dbm.py:60-63). -/
def dbmAdd (values : DBMValues) (key data : String) : DBMValues :=
  alSet values (jsonString key) (jsonString data)

/-- `DBMBackend.update` (dbm.py:65-68). -/
def dbmUpdate (values : DBMValues) (key data : String) : DBMValues :=
  alSet values (jsonString key) (jsonString data)

/-- `DBMBackend.has` (dbm.py:79-81). -/
def dbmHas (values : DBMValues) (key : String) : Bool :=
  alHas values (jsonString key)

/-- `DBMBackend.get` (dbm.py:83-89): `None` when the key is missing,
`self._deserialize(data=data)` otherwise. -/
def dbmGet (values : DBMValues) (key : String) : Option String :=
  (alGet values (jsonString key)).map unJsonString

/-- `DBMBackend.remove` (dbm.py:70-72). -/
def dbmRemove (values : DBMValues) (key : String) : DBMValues :=
  alRemove values (jsonString key)

/-!
## The `MemoryBackend` constructor (memory.py:8-10)

```
def __init__(self):
    super().__init__(self)
    self.values = {}
```

`super().__init__` resolves to `StorageBackend.__init__`
(backends/__init__.py:64-66), declared as `def __init__(self)` — a function
of one parameter.  The call `super().__init__(self)` supplies the bound
`self` plus the explicit argument `self`, i.e. two arguments, which Python
rejects with `TypeError: __init__() takes 1 positional argument but 2 were
given` before the backend exists.  (The tests construct the backend as
`MemoryBackend()`, e.g. `tests/storage_backends.py:422`, and the previous
revision of the class called `Backend.__init__(self)` correctly, so the
extra argument is a slip.)
-/

/-- Number of parameters of `StorageBackend.__init__` (backends/__init__.py:64):
just `self`. -/
def StorageBackend_init_paramCount : Nat := 1

/-- Number of arguments that `MemoryBackend.__init__` passes to
`StorageBackend.__init__` via `super().__init__(self)` (memory.py:9): the
implicit bound `self` plus the explicit `self`. -/
def MemoryBackend_init_superArgCount : Nat := 2

/-- Outcome of a Python call in the model: a value, or one of the
exceptions the modelled code can raise. -/
inductive PyResult (α : Type) : Type
  | ok (value : α)
  | typeError
  | runtimeError
  | attributeError (attr : String)
  | notImplementedError
  deriving DecidableEq

/-- Models evaluating the Python expression `MemoryBackend()`: the
constructor body first performs `super().__init__(self)`, which raises
`TypeError` whenever the supplied argument count differs from the parameter
count of `StorageBackend.__init__`; only if that call succeeds is the
backend (with its empty `values` dictionary) produced. -/
def mkMemoryBackend : PyResult MemoryValues :=
  if MemoryBackend_init_superArgCount = StorageBackend_init_paramCount then
    PyResult.ok ([] : MemoryValues)
  else
    PyResult.typeError

/-!
## Backend write operations and `StorageBackend.process`

`Operation` is the enum of `core.py:286-290`.  `process`
(backends/__init__.py:108-119) dispatches an operation to the backend's
write methods by attribute access on `self`; the `UPDATE` branch reads
`self.udpate(key, data)` — and no class in the package defines an
attribute named `udpate`, so that branch raises `AttributeError` instead
of performing the update.
-/

/-- The `Operation` enum (core.py:286-290). -/
inductive Operation : Type
  | ADD
  | REMOVE
  | UPDATE
  | SAVE_RAW
  deriving DecidableEq

/-- A write call received by a backend, as recorded for the model. -/
inductive BackendOp : Type
  | add (key data : String)
  | update (key data : String)
  | remove (key : String)
  | sync
  deriving DecidableEq

/-- Models Python attribute lookup plus call for a write method on a
`StorageBackend` (or any of its subclasses in the package): the write
methods defined are `add`, `update` and `remove`
(backends/__init__.py:121-132); looking up any other attribute name raises
`AttributeError`. -/
def storageBackendWriteMethod (name : String) (key data : String) : PyResult BackendOp :=
  if name = "add" then PyResult.ok (BackendOp.add key data)
  else if name = "update" then PyResult.ok (BackendOp.update key data)
  else if name = "remove" then PyResult.ok (BackendOp.remove key)
  else PyResult.attributeError name

/-- `StorageBackend.process` (backends/__init__.py:108-119):

```
if operation is Operation.ADD:      return self.add(key, data)
elif operation is Operation.UPDATE: return self.udpate(key, data)
elif operation is Operation.REMOVE: return self.remove(key)
else:                               raise NotImplementedError
```
-/
def process (operation : Operation) (key data : String) : PyResult BackendOp :=
  match operation with
  | Operation.ADD => storageBackendWriteMethod "add" key data
  | Operation.UPDATE => storageBackendWriteMethod "udpate" key data
  | Operation.REMOVE => storageBackendWriteMethod "remove" key data
  | Operation.SAVE_RAW => PyResult.notImplementedError

/-!
## MultiBackend (`backends/__init__.py:212-292`)

A `MultiBackend` holds an ordered list of member backends.  Its
constructor (lines 217-233) walks the members and, for each member with
`HAS_READ` (resp. `HAS_FILE`, `HAS_STREAM`), assigns it to
`self._readBackend` (resp. `_fileBackend`, `_streamBackend`); writes
(`add`, `update`, `remove`, `sync`, lines 242-256) loop over
`self.backends` in list order; reads (`has`/`get`/`list`/`count`/`keys`,
lines 258-281) all go through `self._readBackend`, `path` (lines 283-288)
through `self._fileBackend`.  Member stores are modelled with the
dictionary semantics of the reference `MemoryBackend`.
-/

/-- A member backend of a `MultiBackend`: its capability flags `HAS_READ`
and `HAS_FILE`, its store and the write calls it has received, in order. -/
structure MemberBackend : Type where
  hasRead : Bool
  hasFile : Bool
  store : List (String × String)
  log : List BackendOp
  deriving DecidableEq

/-- A member backend executing one write call (dictionary semantics of the
reference backend), also recording the call in its log. -/
def memberApply (op : BackendOp) (b : MemberBackend) : MemberBackend :=
  { b with
    log := b.log ++ [op]
    store :=
      match op with
      | BackendOp.add key data => alSet b.store (jsonString key) data
      | BackendOp.update key data => alSet b.store (jsonString key) data
      | BackendOp.remove key => alRemove b.store (jsonString key)
      | BackendOp.sync => b.store }

/-- The state of a `MultiBackend`: the member list plus the `_readBackend`
and `_fileBackend` attributes assigned by the constructor. -/
structure MultiBackendState : Type where
  backends : List MemberBackend
  readBackend : Option MemberBackend
  fileBackend : Option MemberBackend
  deriving DecidableEq

/-- `MultiBackend.__init__` (backends/__init__.py:217-233): the loop
`for b in self.backends: if b.HAS_READ: self._readBackend = b; if
b.HAS_FILE: self._fileBackend = b` (the pub/sub wiring of line 229 is the
subject of the `process` model above). -/
def multiBackendInit (bs : List MemberBackend) : MultiBackendState :=
  { backends := bs
    readBackend := bs.foldl (fun acc b => if b.hasRead then some b else acc) none
    fileBackend := bs.foldl (fun acc b => if b.hasFile then some b else acc) none }

/-- `MultiBackend.add` (backends/__init__.py:242-244): `for backend in
self.backends: backend.add(key, data)`. -/
def multiAdd (m : MultiBackendState) (key data : String) : MultiBackendState :=
  { m with backends := m.backends.map (memberApply (BackendOp.add key data)) }

/-- `MultiBackend.update` (backends/__init__.py:246-248). -/
def multiUpdate (m : MultiBackendState) (key data : String) : MultiBackendState :=
  { m with backends := m.backends.map (memberApply (BackendOp.update key data)) }

/-- `MultiBackend.remove` (backends/__init__.py:250-252). -/
def multiRemove (m : MultiBackendState) (key : String) : MultiBackendState :=
  { m with backends := m.backends.map (memberApply (BackendOp.remove key)) }

/-- `MultiBackend.sync` (backends/__init__.py:254-256). -/
def multiSync (m : MultiBackendState) : MultiBackendState :=
  { m with backends := m.backends.map (memberApply BackendOp.sync) }

/-- `MultiBackend.get` (backends/__init__.py:263-266): raise `RuntimeError`
when `_readBackend` is unset, else `self._readBackend.get(key)`. -/
def multiGet (m : MultiBackendState) (key : String) : PyResult (Option String) :=
  match m.readBackend with
  | none => PyResult.runtimeError
  | some b => PyResult.ok (memoryGet b.store key)

/-- `MultiBackend.path` (backends/__init__.py:283-288): the member that
serves file access, or `RuntimeError` when `_fileBackend` is unset. -/
def multiFileServer (m : MultiBackendState) : PyResult MemberBackend :=
  match m.fileBackend with
  | none => PyResult.runtimeError
  | some b => PyResult.ok b

/-- The member selection claimed by the spec (§4.2): the FIRST member
whose `HAS_READ` flag is true.  Stated from the spec's words, for
comparison with the constructor's actual selection. -/
def specFirstReadBackend (bs : List MemberBackend) : Option MemberBackend :=
  bs.find? (fun b => b.hasRead)

theorem foldl_choose_last {α : Type} (p : α → Bool) (bs : List α) (acc : Option α) :
    bs.foldl (fun a b => if p b then some b else a) acc =
      (bs.reverse.find? p).elim acc some := by
  induction bs generalizing acc with
  | nil => simp
  | cons b rest ih =>
      simp only [List.foldl_cons, List.reverse_cons, List.find?_append, ih]
      cases hfind : rest.reverse.find? p with
      | some x => simp [Option.elim]
      | none =>
          by_cases hb : p b <;> simp [List.find?, hb, Option.elim]

theorem multiBackendInit_readBackend (bs : List MemberBackend) :
    (multiBackendInit bs).readBackend = bs.reverse.find? (fun b => b.hasRead) := by
  show bs.foldl _ none = _
  rw [foldl_choose_last]
  cases bs.reverse.find? (fun b => b.hasRead) <;> simp [Option.elim]

theorem multiBackendInit_fileBackend (bs : List MemberBackend) :
    (multiBackendInit bs).fileBackend = bs.reverse.find? (fun b => b.hasFile) := by
  show bs.foldl _ none = _
  rw [foldl_choose_last]
  cases bs.reverse.find? (fun b => b.hasFile) <;> simp [Option.elim]

/-!
## IndexStorage (`index.py:342-455`)

An `IndexStorage` persists an index in two key-value backends: `forward`
(index key → list of signatures) and `backward` (signature → list of index
keys).  The backends are exercised only through `has`/`get`/`add`/
`update`/`remove`; with the reference `MemoryBackend` these are the
dictionary operations, which is how they are modelled here (the injective
key serialization of the backend is dropped, as it only renames keys).
`add` and `update` of a backend both store unconditionally, so both map to
`alSet`.
-/

/-- A forward or backward backend: keys mapped to lists of strings. -/
abbrev IndexKV : Type := List (String × List String)

/-- The two backends of an `IndexStorage` (index.py:350-356; the `meta`
backend, which only stores the `__index__.lastUpdate` timestamp written by
`sync`, plays no part in the claims). -/
structure IndexStorageState : Type where
  forwardBackend : IndexKV
  backwardBackend : IndexKV
  deriving DecidableEq

/-- An `IndexStorage` over two fresh (empty) backends. -/
def emptyIndexStorage : IndexStorageState :=
  { forwardBackend := [], backwardBackend := [] }

/-- One iteration of the first loop of `IndexStorage.add`
(index.py:371-383): remove `sig` from `forward[previous_key]` (the list
`values = [_ for _ in forward.get(previous_key) if _ != sig]`), deleting
the entry when the remaining list is empty, and skipping keys with no
forward entry. -/
def forwardStrip (sig : String) (fwd : IndexKV) (previousKey : String) : IndexKV :=
  if alHas fwd previousKey then
    if (((alGet fwd previousKey).getD []).filter (fun v => v ≠ sig)).isEmpty then
      alRemove fwd previousKey
    else
      alSet fwd previousKey (((alGet fwd previousKey).getD []).filter (fun v => v ≠ sig))
  else fwd

/-- One iteration of the second loop of `IndexStorage.add`
(index.py:388-394): append `sig` to `forward[key]`, creating the entry if
absent. -/
def forwardInsert (sig : String) (fwd : IndexKV) (key : String) : IndexKV :=
  if alHas fwd key then
    alSet fwd key (((alGet fwd key).getD []) ++ [sig])
  else alSet fwd key [sig]

/-- `IndexStorage.add` (index.py:362-394).  `keys` is already in list form
(the code wraps a single key into a tuple first).  The first loop runs
only when `backward.has(sig)`; it strips `sig` from the forward entries of
the previously recorded keys, then `backward[sig]` is overwritten with the
new keys; the second loop registers `sig` under each new key.  The two
loops touch only the forward backend, so they are rendered as folds over
that backend. -/
def indexStorageAdd (s : IndexStorageState) (sig : String) (keys : List String) :
    IndexStorageState :=
  if alHas s.backwardBackend sig then
    { forwardBackend :=
        keys.foldl (forwardInsert sig)
          (((alGet s.backwardBackend sig).getD []).foldl (forwardStrip sig)
            s.forwardBackend)
      backwardBackend := alSet s.backwardBackend sig keys }
  else
    { forwardBackend := keys.foldl (forwardInsert sig) s.forwardBackend
      backwardBackend := alSet s.backwardBackend sig keys }

/-- One iteration of the loop of `IndexStorage.remove` (index.py:433-443):
like `forwardStrip`, except that a missing forward mapping is tolerated
(`forward_mapping or ()`) and the entry is only deleted when a mapping was
present (`if forward_mapping != None`). -/
def forwardStripRemove (sig : String) (fwd : IndexKV) (previousKey : String) : IndexKV :=
  if (((alGet fwd previousKey).getD []).filter (fun v => v ≠ sig)).isEmpty then
    if alGet fwd previousKey ≠ none then alRemove fwd previousKey else fwd
  else alSet fwd previousKey (((alGet fwd previousKey).getD []).filter (fun v => v ≠ sig))

/-- `IndexStorage.remove` (index.py:431-444): when `backward.has(sig)`,
strip `sig` from the forward entry of every previously recorded key and
delete `backward[sig]`; otherwise do nothing. -/
def indexStorageRemove (s : IndexStorageState) (sig : String) : IndexStorageState :=
  if alHas s.backwardBackend sig then
    { forwardBackend :=
        ((alGet s.backwardBackend sig).getD []).foldl (forwardStripRemove sig)
          s.forwardBackend
      backwardBackend := alRemove s.backwardBackend sig }
  else s

/-- `IndexStorage.get` (index.py:396-397): `forward.get(key)`. -/
def indexStorageGet (s : IndexStorageState) (key : String) : Option (List String) :=
  alGet s.forwardBackend key

/-- `Index.get` (index.py:278-281) with `restore=False`: iterate
`self.STORAGE.get(key) or ()`, yielding the non-`None` entries — the
signatures matched under `key` (with `restore=True` each signature is
additionally passed through the restorer, which does not change how many
matches there are). -/
def indexGet (s : IndexStorageState) (key : String) : List String :=
  (indexStorageGet s key).getD []

/-- `Index.add` (index.py:272-273) for a value with signature `sig`
(`getSignature`, its storage key) whose extractor produced `keys`. -/
def indexAdd (s : IndexStorageState) (sig : String) (keys : List String) :
    IndexStorageState :=
  indexStorageAdd s sig keys

/-- `Index.remove` (index.py:312-313) for a value with signature `sig`. -/
def indexRemove (s : IndexStorageState) (sig : String) : IndexStorageState :=
  indexStorageRemove s sig

/-- A forward backend all of whose recorded signatures are `sig` — the
shape every forward backend has when only the single signature `sig` was
ever added. -/
def onlySig (sig : String) (fwd : IndexKV) : Prop :=
  ∀ k : String, ∀ x ∈ (alGet fwd k).getD [], x = sig

theorem alGet_eq_none_of_not_alHas {κ α : Type} [DecidableEq κ] (d : List (κ × α))
    (k : κ) (h : ¬alHas d k = true) : alGet d k = none := by
  cases hval : alGet d k with
  | none => rfl
  | some v => exact absurd (by simp [alHas, hval]) h

theorem forwardInsert_get (sig : String) (fwd : IndexKV) (q k : String) :
    alGet (forwardInsert sig fwd q) k =
      if q = k then some (((alGet fwd q).getD []) ++ [sig]) else alGet fwd k := by
  unfold forwardInsert
  by_cases h : alHas fwd q
  · rw [if_pos h]
    by_cases hq : q = k
    · subst hq
      rw [alGet_alSet_self, if_pos rfl]
    · rw [alGet_alSet_ne _ _ _ _ (fun hk => hq hk.symm), if_neg hq]
  · rw [if_neg h]
    have hget : alGet fwd q = none := alGet_eq_none_of_not_alHas fwd q h
    by_cases hq : q = k
    · subst hq
      rw [alGet_alSet_self, if_pos rfl, hget]
      rfl
    · rw [alGet_alSet_ne _ _ _ _ (fun hk => hq hk.symm), if_neg hq]

theorem foldl_forwardInsert_get (sig : String) (keys : List String) (fwd : IndexKV)
    (k : String) :
    alGet (keys.foldl (forwardInsert sig) fwd) k =
      if keys.count k = 0 then alGet fwd k
      else some (((alGet fwd k).getD []) ++ List.replicate (keys.count k) sig) := by
  induction keys generalizing fwd with
  | nil => simp
  | cons q rest ih =>
      rw [List.foldl_cons, ih]
      by_cases hq : q = k
      · subst hq
        rw [forwardInsert_get, if_pos rfl]
        by_cases hz : rest.count q = 0 <;>
          simp [List.count_cons, hz, List.replicate_succ, List.replicate]
      · rw [forwardInsert_get, if_neg hq]
        have hcount : (q :: rest).count k = rest.count k := by
          simp [List.count_cons, hq]
        rw [hcount]

theorem filter_ne_eq_nil_of_onlySig (sig : String) (fwd : IndexKV) (p : String)
    (h : onlySig sig fwd) :
    ((alGet fwd p).getD []).filter (fun v => v ≠ sig) = [] := by
  refine List.filter_eq_nil_iff.mpr ?_
  intro a ha
  simp [h p a ha]

theorem forwardStrip_of_onlySig (sig : String) (fwd : IndexKV) (p : String)
    (h : onlySig sig fwd) : forwardStrip sig fwd p = alRemove fwd p := by
  unfold forwardStrip
  rw [filter_ne_eq_nil_of_onlySig sig fwd p h]
  by_cases hp : alHas fwd p
  · rw [if_pos hp]
    rfl
  · rw [if_neg hp, alRemove_of_absent fwd p (alGet_eq_none_of_not_alHas fwd p hp)]

theorem forwardStripRemove_of_onlySig (sig : String) (fwd : IndexKV) (p : String)
    (h : onlySig sig fwd) : forwardStripRemove sig fwd p = alRemove fwd p := by
  unfold forwardStripRemove
  rw [filter_ne_eq_nil_of_onlySig sig fwd p h]
  cases hget : alGet fwd p with
  | some v => simp [hget]
  | none => simp [hget, alRemove_of_absent fwd p hget]

theorem onlySig_alRemove (sig : String) (fwd : IndexKV) (p : String)
    (h : onlySig sig fwd) : onlySig sig (alRemove fwd p) := by
  intro k x hx
  by_cases hk : k = p
  · subst hk
    rw [alGet_alRemove_self] at hx
    simp at hx
  · rw [alGet_alRemove_ne fwd p k hk] at hx
    exact h k x hx

theorem foldl_alRemove_get {α : Type} (P : List String) (fwd : List (String × α))
    (k : String) :
    alGet (P.foldl alRemove fwd) k = if k ∈ P then none else alGet fwd k := by
  induction P generalizing fwd with
  | nil => simp
  | cons p rest ih =>
      rw [List.foldl_cons, ih]
      by_cases hmem : k ∈ rest
      · simp [hmem]
      · by_cases hk : k = p
        · subst hk
          simp [hmem, alGet_alRemove_self]
        · simp [hmem, hk, alGet_alRemove_ne fwd p k hk]

theorem foldl_forwardStrip_of_onlySig (sig : String) (P : List String) (fwd : IndexKV)
    (h : onlySig sig fwd) :
    P.foldl (forwardStrip sig) fwd = P.foldl alRemove fwd := by
  induction P generalizing fwd with
  | nil => rfl
  | cons p rest ih =>
      rw [List.foldl_cons, List.foldl_cons, forwardStrip_of_onlySig sig fwd p h]
      exact ih (alRemove fwd p) (onlySig_alRemove sig fwd p h)

theorem foldl_forwardStripRemove_of_onlySig (sig : String) (P : List String)
    (fwd : IndexKV) (h : onlySig sig fwd) :
    P.foldl (forwardStripRemove sig) fwd = P.foldl alRemove fwd := by
  induction P generalizing fwd with
  | nil => rfl
  | cons p rest ih =>
      rw [List.foldl_cons, List.foldl_cons, forwardStripRemove_of_onlySig sig fwd p h]
      exact ih (alRemove fwd p) (onlySig_alRemove sig fwd p h)

theorem indexStorageAdd_empty_forward_get (sig : String) (keys : List String)
    (k : String) :
    alGet (indexStorageAdd emptyIndexStorage sig keys).forwardBackend k =
      if keys.count k = 0 then none
      else some (List.replicate (keys.count k) sig) := by
  have hsplit : (indexStorageAdd emptyIndexStorage sig keys).forwardBackend =
      keys.foldl (forwardInsert sig) [] := by
    unfold indexStorageAdd
    rw [if_neg (by simp [alHas, alGet, emptyIndexStorage])]
    rfl
  rw [hsplit, foldl_forwardInsert_get]
  by_cases hz : keys.count k = 0 <;> simp [hz, alGet]

theorem indexStorageAdd_empty_backward (sig : String) (keys : List String) :
    (indexStorageAdd emptyIndexStorage sig keys).backwardBackend =
      [(sig, keys)] := by
  unfold indexStorageAdd
  rw [if_neg (by simp [alHas, alGet, emptyIndexStorage])]
  rfl

theorem indexStorageAdd_empty_onlySig (sig : String) (keys : List String) :
    onlySig sig (indexStorageAdd emptyIndexStorage sig keys).forwardBackend := by
  intro k x hx
  rw [indexStorageAdd_empty_forward_get] at hx
  by_cases hz : keys.count k = 0
  · simp [hz] at hx
  · rw [if_neg hz] at hx
    simp only [Option.getD_some] at hx
    exact List.eq_of_mem_replicate hx

theorem indexStorageAdd_forward_of_has (s : IndexStorageState) (sig : String)
    (keys : List String) (h : alHas s.backwardBackend sig = true) :
    (indexStorageAdd s sig keys).forwardBackend =
      keys.foldl (forwardInsert sig)
        (((alGet s.backwardBackend sig).getD []).foldl (forwardStrip sig)
          s.forwardBackend) := by
  unfold indexStorageAdd
  rw [if_pos h]

theorem indexStorageAdd_backward_eq (s : IndexStorageState) (sig : String)
    (keys : List String) :
    (indexStorageAdd s sig keys).backwardBackend = alSet s.backwardBackend sig keys := by
  unfold indexStorageAdd
  by_cases h : alHas s.backwardBackend sig
  · rw [if_pos h]
  · rw [if_neg h]

theorem indexStorageRemove_of_has (s : IndexStorageState) (sig : String)
    (h : alHas s.backwardBackend sig = true) :
    indexStorageRemove s sig =
      { forwardBackend :=
          ((alGet s.backwardBackend sig).getD []).foldl (forwardStripRemove sig)
            s.forwardBackend
        backwardBackend := alRemove s.backwardBackend sig } := by
  unfold indexStorageRemove
  rw [if_pos h]

/-- `add(S, K1)` followed by `add(S, K2)` on a fresh `IndexStorage`. -/
def addTwice (S : String) (K1 K2 : List String) : IndexStorageState :=
  indexStorageAdd (indexStorageAdd emptyIndexStorage S K1) S K2

theorem firstAdd_stripped_get (S : String) (K1 : List String) (k : String) :
    alGet (K1.foldl alRemove
      (indexStorageAdd emptyIndexStorage S K1).forwardBackend) k = none := by
  rw [foldl_alRemove_get]
  by_cases hk : k ∈ K1
  · simp [hk]
  · rw [if_neg hk, indexStorageAdd_empty_forward_get]
    simp [List.count_eq_zero.mpr hk]

theorem addTwice_forward_get (S : String) (K1 K2 : List String) (k : String) :
    alGet (addTwice S K1 K2).forwardBackend k =
      if K2.count k = 0 then none else some (List.replicate (K2.count k) S) := by
  have hbk := indexStorageAdd_empty_backward S K1
  have hhas : alHas (indexStorageAdd emptyIndexStorage S K1).backwardBackend S = true := by
    simp [hbk, alHas, alGet]
  have hgetK1 : (alGet (indexStorageAdd emptyIndexStorage S K1).backwardBackend S).getD []
      = K1 := by
    simp [hbk, alGet]
  have hforward : (addTwice S K1 K2).forwardBackend =
      K2.foldl (forwardInsert S)
        (K1.foldl (forwardStrip S)
          (indexStorageAdd emptyIndexStorage S K1).forwardBackend) := by
    show (indexStorageAdd (indexStorageAdd emptyIndexStorage S K1) S K2).forwardBackend = _
    rw [indexStorageAdd_forward_of_has _ S K2 hhas, hgetK1]
  rw [hforward,
    foldl_forwardStrip_of_onlySig S K1 _ (indexStorageAdd_empty_onlySig S K1),
    foldl_forwardInsert_get]
  by_cases hz : K2.count k = 0 <;> simp [hz, firstAdd_stripped_get S K1 k]

theorem addTwice_backward (S : String) (K1 K2 : List String) :
    (addTwice S K1 K2).backwardBackend = [(S, K2)] := by
  show (indexStorageAdd (indexStorageAdd emptyIndexStorage S K1) S K2).backwardBackend = _
  rw [indexStorageAdd_backward_eq, indexStorageAdd_empty_backward]
  simp [alSet]

/-- C3 (amended: the new key list `K2` is assumed free of duplicate keys —
extractors may return a key twice, and then the second loop of
`IndexStorage.add` appends the signature once per occurrence, see the
counterexample).  Starting from an empty `IndexStorage`, after
`add(S, K1)` followed by `add(S, K2)`: `backward[S]` equals `K2`; every
key `k ∈ K2` has `forward[k]` containing `S` exactly once; and every key
`k ∈ K1` that is not in `K2` has no forward entry at all — it was deleted
when its signature list became empty, so it no longer appears among the
forward backend's keys. -/
theorem claim_C3 (S : String) (K1 K2 : List String) (hnd : K2.Nodup) :
    alGet (addTwice S K1 K2).backwardBackend S = some K2
    ∧ (∀ k ∈ K2, ((alGet (addTwice S K1 K2).forwardBackend k).getD []).count S = 1)
    ∧ (∀ k ∈ K1, k ∉ K2 →
        alHas (addTwice S K1 K2).forwardBackend k = false
        ∧ k ∉ alKeys (addTwice S K1 K2).forwardBackend) := by
  refine ⟨?_, ?_, ?_⟩
  · rw [addTwice_backward]
    simp [alGet]
  · intro k hk
    rw [addTwice_forward_get]
    have hc1 : K2.count k = 1 := List.count_eq_one_of_mem hnd hk
    simp [hc1]
  · intro k hk1 hk2
    have hc0 : K2.count k = 0 := List.count_eq_zero.mpr hk2
    have hfalse : alHas (addTwice S K1 K2).forwardBackend k = false := by
      simp [alHas, addTwice_forward_get, hc0]
    refine ⟨hfalse, fun hmem => ?_⟩
    have := (alHas_iff_mem_alKeys (addTwice S K1 K2).forwardBackend k).mpr hmem
    rw [hfalse] at this
    exact Bool.false_ne_true this

/-- C3 counterexample: with `S = "s"`, `K1 = []` and `K2 = ["k", "k"]`
(a key list containing a duplicate key), after the two `add` calls the
forward entry for `"k"` is `["s", "s"]` — the signature appears twice, so
the claim's "forward[k] contains S exactly once (a duplicate S is never
added)" fails for arbitrary key lists. -/
theorem claim_C3_counterexample :
    alGet (addTwice "s" [] ["k", "k"]).forwardBackend "k" = some ["s", "s"]
    ∧ ¬(((alGet (addTwice "s" [] ["k", "k"]).forwardBackend "k").getD []).count "s" = 1) := by
  decide

/-- C3 witness: the amended theorem applied to `S = "s"`, `K1 = ["a"]`,
`K2 = ["b"]`. -/
theorem claim_C3_witness :
    alGet (addTwice "s" ["a"] ["b"]).backwardBackend "s" = some ["b"]
    ∧ ((alGet (addTwice "s" ["a"] ["b"]).forwardBackend "b").getD []).count "s" = 1
    ∧ alHas (addTwice "s" ["a"] ["b"]).forwardBackend "a" = false := by
  obtain ⟨h1, h2, h3⟩ := claim_C3 "s" ["a"] ["b"] (by decide)
  exact ⟨h1, h2 "b" (by decide), (h3 "a" (by decide) (by decide)).1⟩

/-- C4: starting from an empty index, `index.add(obj)` followed by
`index.remove(obj)` — for an object with storage-key signature `sig` whose
extractor produced `keys` — returns the `IndexStorage` to the empty state:
`index.get` yields no matches for any extracted key, and every forward
bucket emptied by the removal was deleted, so the forward backend has no
keys at all. -/
theorem claim_C4 (sig : String) (keys : List String) :
    indexRemove (indexAdd emptyIndexStorage sig keys) sig = emptyIndexStorage
    ∧ (∀ k, k ∈ keys → indexGet (indexRemove (indexAdd emptyIndexStorage sig keys) sig) k = [])
    ∧ alKeys (indexRemove (indexAdd emptyIndexStorage sig keys) sig).forwardBackend = [] := by
  have hbk := indexStorageAdd_empty_backward sig keys
  have hhas : alHas (indexStorageAdd emptyIndexStorage sig keys).backwardBackend sig
      = true := by
    simp [hbk, alHas, alGet]
  have hgetK : (alGet (indexStorageAdd emptyIndexStorage sig keys).backwardBackend
      sig).getD [] = keys := by
    simp [hbk, alGet]
  have hmain : indexRemove (indexAdd emptyIndexStorage sig keys) sig = emptyIndexStorage := by
    show indexStorageRemove (indexStorageAdd emptyIndexStorage sig keys) sig = _
    rw [indexStorageRemove_of_has _ sig hhas, hgetK,
      foldl_forwardStripRemove_of_onlySig sig keys _ (indexStorageAdd_empty_onlySig sig keys)]
    have hfwd : keys.foldl alRemove
        (indexStorageAdd emptyIndexStorage sig keys).forwardBackend = [] :=
      alGet_eq_none_of_all _ (firstAdd_stripped_get sig keys)
    have hbwd : alRemove (indexStorageAdd emptyIndexStorage sig keys).backwardBackend sig
        = [] := by
      simp [hbk, alRemove]
    rw [hfwd, hbwd]
    rfl
  refine ⟨hmain, ?_, ?_⟩
  · intro k _
    rw [hmain]
    rfl
  · rw [hmain]
    rfl

/-- C4 witness: the theorem applied to `sig = "Value.1"` and extractor
keys `["a", "b"]`. -/
theorem claim_C4_witness :
    indexRemove (indexAdd emptyIndexStorage "Value.1" ["a", "b"]) "Value.1"
      = emptyIndexStorage
    ∧ indexGet (indexRemove (indexAdd emptyIndexStorage "Value.1" ["a", "b"]) "Value.1") "a"
      = [] := by
  obtain ⟨h1, h2, h3⟩ := claim_C4 "Value.1" ["a", "b"]
  exact ⟨h1, h2 "a" (by decide)⟩

/-- C5 (amended: reads and file access are served by the LAST
capability-matching member, not the first — the constructor's loop
`for b in self.backends: if b.HAS_READ: self._readBackend = b` overwrites
the attribute on every match, so the final assignment wins).  Write
operations are applied to every member, iterating the member list in
order; reads go to the last member with `HAS_READ`, file access to the
last member with `HAS_FILE`. -/
theorem claim_C5 (bs : List MemberBackend) (key data : String) :
    ((multiAdd (multiBackendInit bs) key data).backends.map (fun b => b.log)
      = bs.map (fun b => b.log ++ [BackendOp.add key data]))
    ∧ ((multiUpdate (multiBackendInit bs) key data).backends.map (fun b => b.log)
      = bs.map (fun b => b.log ++ [BackendOp.update key data]))
    ∧ ((multiRemove (multiBackendInit bs) key).backends.map (fun b => b.log)
      = bs.map (fun b => b.log ++ [BackendOp.remove key]))
    ∧ ((multiSync (multiBackendInit bs)).backends.map (fun b => b.log)
      = bs.map (fun b => b.log ++ [BackendOp.sync]))
    ∧ (multiBackendInit bs).readBackend = bs.reverse.find? (fun b => b.hasRead)
    ∧ (multiBackendInit bs).fileBackend = bs.reverse.find? (fun b => b.hasFile)
    ∧ multiGet (multiBackendInit bs) key =
        (bs.reverse.find? (fun b => b.hasRead)).elim PyResult.runtimeError
          (fun b => PyResult.ok (memoryGet b.store key)) := by
  refine ⟨?_, ?_, ?_, ?_, multiBackendInit_readBackend bs, multiBackendInit_fileBackend bs, ?_⟩
  · simp [multiAdd, multiBackendInit, memberApply, Function.comp]
  · simp [multiUpdate, multiBackendInit, memberApply, Function.comp]
  · simp [multiRemove, multiBackendInit, memberApply, Function.comp]
  · simp [multiSync, multiBackendInit, memberApply, Function.comp]
  · show (match (multiBackendInit bs).readBackend with
      | none => PyResult.runtimeError
      | some b => PyResult.ok (memoryGet b.store key)) = _
    rw [multiBackendInit_readBackend bs]
    cases bs.reverse.find? (fun b => b.hasRead) <;> rfl

/-- First member of the C5 counterexample: `HAS_READ` and `HAS_FILE` set,
storing `"1"` under key `"k"`. -/
def exMemberA : MemberBackend :=
  { hasRead := true, hasFile := true, store := [(jsonString "k", "1")], log := [] }

/-- Second member of the C5 counterexample: `HAS_READ` set, storing `"2"`
under key `"k"`. -/
def exMemberB : MemberBackend :=
  { hasRead := true, hasFile := false, store := [(jsonString "k", "2")], log := [] }

/-- C5 counterexample: with two members that both have `HAS_READ`, the
constructor selects the SECOND (last) member as `_readBackend`, not the
first as the claim states, and `get` returns the second member's value
`"2"` instead of the first member's `"1"`. -/
theorem claim_C5_counterexample :
    specFirstReadBackend [exMemberA, exMemberB] = some exMemberA
    ∧ (multiBackendInit [exMemberA, exMemberB]).readBackend = some exMemberB
    ∧ exMemberB ≠ exMemberA
    ∧ multiGet (multiBackendInit [exMemberA, exMemberB]) "k" = PyResult.ok (some "2")
    ∧ memoryGet exMemberA.store "k" = some "1" := by
  refine ⟨rfl, rfl, by decide, rfl, rfl⟩

/-- C9: `process` maps `Operation.ADD` to `add(key, data)` and
`Operation.REMOVE` to `remove(key)`, but its `Operation.UPDATE` branch
invokes the attribute `udpate` (backends/__init__.py:114) — a name no
class in the package defines — so replaying an UPDATE raises
`AttributeError` instead of performing `update(key, data)`: the claim
matches the intended behaviour and the code has a typo. -/
theorem claim_C9 (key data : String) :
    process Operation.ADD key data = PyResult.ok (BackendOp.add key data)
    ∧ process Operation.REMOVE key data = PyResult.ok (BackendOp.remove key)
    ∧ process Operation.UPDATE key data = PyResult.attributeError "udpate" := by
  exact ⟨rfl, rfl, rfl⟩

/-- C10: on the Memory and DBM reference backends, `add` and `update` are
literally the same store operation (both assign
`self.values[serialized key] = data`); in particular `update` on a missing
key creates the entry and `add` on a present key silently replaces it, and
a subsequent `get(key)` returns the data in both cases and on both
backends. -/
theorem claim_C10 (values : List (String × String)) (key data : String) :
    memoryAdd values key data = memoryUpdate values key data
    ∧ dbmAdd values key data = dbmUpdate values key data
    ∧ memoryGet (memoryUpdate values key data) key = some data
    ∧ memoryGet (memoryAdd values key data) key = some data
    ∧ dbmGet (dbmUpdate values key data) key = some data
    ∧ dbmGet (dbmAdd values key data) key = some data := by
  refine ⟨rfl, rfl, ?_, ?_, ?_, ?_⟩
  · exact alGet_alSet_self values (jsonString key) data
  · exact alGet_alSet_self values (jsonString key) data
  · show ((alGet (alSet values (jsonString key) (jsonString data)) (jsonString key)).map
      unJsonString) = some data
    rw [alGet_alSet_self]
    simp [unJsonString_jsonString]
  · show ((alGet (alSet values (jsonString key) (jsonString data)) (jsonString key)).map
      unJsonString) = some data
    rw [alGet_alSet_self]
    simp [unJsonString_jsonString]

/-- C6: the scenario cannot run — its very first step, constructing the
`MemoryBackend`, raises `TypeError`, because `MemoryBackend.__init__`
(memory.py:9) calls `super().__init__(self)`, passing two arguments to
`StorageBackend.__init__` (backends/__init__.py:64), which takes only
`self`.  The claim describes the intended behaviour (the test suite
constructs `MemoryBackend()` directly and the predecessor revision invoked
`Backend.__init__(self)` correctly); the extra argument is a slip in the
code. -/
theorem claim_C6 : mkMemoryBackend = PyResult.typeError := by
  rfl

/-!
## Relation (`objects.py:744-931`)

A `Relation` holds a definition — either a class (singular, one-to-one) or
a one-element list of a class (plural, one-to-many) — and a `values` list
that is `None` until first touched.  Classes are represented by their
canonical names.  The values passed to `append` are modelled by `PyVal`;
`restore` (core.py:51-82) maps a `{oid, type}` dict to a live instance of
its class and leaves live storables and non-dict values unchanged.
-/

/-- The `definition` of a relation (objects.py:748-751): a class, or a
one-element list of a class. -/
inductive RelationDef : Type
  | single (className : String)
  | many (className : String)
  deriving DecidableEq

/-- `Relation.isMany` (objects.py:876-877): the definition is a tuple or
list. -/
def relationIsMany : RelationDef → Bool
  | RelationDef.single _ => false
  | RelationDef.many _ => true

/-- `Relation.getRelationClass` (objects.py:879-883). -/
def relationClassName : RelationDef → String
  | RelationDef.single c => c
  | RelationDef.many c => c

/-- A Python value passed to `Relation.append`: `None`, an empty dict, a
live `StoredObject` (with its canonical type name and oid), an exported
reference dict `{oid, type}`, or a non-empty value of any other type. -/
inductive PyVal : Type
  | pyNone
  | emptyDict
  | storable (typeName oid : String)
  | ref (typeName oid : String)
  | primitive (s : String)
  deriving DecidableEq

/-- Python truthiness of a `PyVal` (`if not value`): `None` and the empty
dict are falsy; `primitive` stands for a non-empty non-dict value. -/
def pyTruthy : PyVal → Bool
  | PyVal.pyNone => false
  | PyVal.emptyDict => false
  | _ => true

/-- `isinstance(value, dict) or isinstance(value, StoredObject)`
(objects.py:765). -/
def isDictOrStorable : PyVal → Bool
  | PyVal.storable _ _ => true
  | PyVal.ref _ _ => true
  | PyVal.emptyDict => true
  | _ => false

/-- `restore(value)` (core.py:51-82) as far as `append` uses it: a live
storable is returned as-is; a `{oid, type}` dict becomes a live instance of
its class; other values are returned unchanged. -/
def restoreVal : PyVal → PyVal
  | PyVal.ref t o => PyVal.storable t o
  | v => v

/-- The canonical type name of a restored value when it is a live
storable (`restored.typeName`), `none` otherwise (the `isinstance` check
of objects.py:770-772 fails on non-storables). -/
def typeNameOf : PyVal → Option String
  | PyVal.storable t _ => some t
  | _ => none

/-- The state of a `Relation`: its definition and its `values` list
(`None` until first touched); stored values are the restored storables,
kept as (type name, oid). -/
structure RelationState : Type where
  definition : RelationDef
  values : Option (List (String × String))
  deriving DecidableEq

/-- The errors `Relation.append` can raise. -/
inductive AppendError : Type
  | valueError
  | runtimeErrorSingular
  deriving DecidableEq

/-- The oid/type pair stored for a restored storable (defaulting to a pair
of empty strings on non-storables, which never reach the append). -/
def storedPair : PyVal → String × String
  | PyVal.storable t o => (t, o)
  | _ => ("", "")

/-- `Relation.append` (objects.py:762-785), returning the state of the
relation after the call together with the exception raised, if any:

```
if not value: return self
if not (isinstance(value, dict) or isinstance(value, StoredObject)):
    raise ValueError
restored = restore(value)
if not isinstance(restored, cls) or restored.typeName != canonical(cls):
    raise ValueError
if self.values is None: self.values = []
if not self.isMany() and len(self.values): raise RuntimeError(...)
else: self.values.append(restored)
```

Mutations performed before a raise (the `values = []` initialization)
persist in the returned state, as they do in Python. -/
def relationAppend (r : RelationState) (value : PyVal) :
    RelationState × Option AppendError :=
  if pyTruthy value = false then (r, none)
  else if isDictOrStorable value = false then (r, some AppendError.valueError)
  else if typeNameOf (restoreVal value) ≠ some (relationClassName r.definition) then
    (r, some AppendError.valueError)
  else
    if relationIsMany r.definition = false ∧ (r.values.getD []).length ≠ 0 then
      ({ r with values := some (r.values.getD []) }, some AppendError.runtimeErrorSingular)
    else
      ({ r with values := some ((r.values.getD []) ++ [storedPair (restoreVal value)]) },
        none)

/-- C8: a relation declared singular that already holds one value rejects
any further non-empty valid value (one that passes the dict-or-storable
and relation-class checks) with the `RuntimeError` of objects.py:779-782,
and the relation's stored values are unchanged by the failed append. -/
theorem claim_C8 (cls : String) (v0 : String × String) (v : PyVal)
    (htruthy : pyTruthy v = true)
    (hdict : isDictOrStorable v = true)
    (htype : typeNameOf (restoreVal v) = some cls) :
    relationAppend (RelationState.mk (RelationDef.single cls) (some [v0])) v =
      (RelationState.mk (RelationDef.single cls) (some [v0]),
        some AppendError.runtimeErrorSingular) := by
  unfold relationAppend
  rw [if_neg (by simp [htruthy]), if_neg (by simp [hdict]),
    if_neg (by simp [relationClassName, htype])]
  rw [if_pos (by simp [relationIsMany])]
  rfl

/-- C8 witness: a singular relation `replyTo : Message` holding one value
rejects a second `append` of a valid `{oid, type}` reference. -/
theorem claim_C8_witness :
    relationAppend
      (RelationState.mk (RelationDef.single "messages.Message") (some [("messages.Message", "1")]))
      (PyVal.ref "messages.Message" "2") =
      (RelationState.mk (RelationDef.single "messages.Message") (some [("messages.Message", "1")]),
        some AppendError.runtimeErrorSingular) :=
  claim_C8 "messages.Message" ("messages.Message", "1") (PyVal.ref "messages.Message" "2")
    (by decide) (by decide) (by decide)

/-!
## The `updates` map of `StoredObject` (`objects.py:386-425`)

`setProperty` and `setRelation` both end (on a non-new object whose value
changed) with

```
self._updates[name] = self._updates["oid"] = max(
    getTimestamp() if timestamp is None else timestamp,
    self._updates.get(name, -1))
```

i.e. both the field entry and the `oid` entry are set to
`max(ts, updates.get(name, -1))`, where `ts` is the explicit `timestamp`
argument or the current clock.  Timestamps are modelled as integers (the
`-1` default makes them signed).
-/

abbrev UpdatesMap : Type := List (String × Int)

/-- The timestamp update performed by `setProperty` (objects.py:398-404)
and `setRelation` (objects.py:418-424): `ts` is the `timestamp` argument,
or the value of `getTimestamp()` when none was given. -/
def bumpUpdate (u : UpdatesMap) (name : String) (ts : Int) : UpdatesMap :=
  alSet (alSet u name (max ts ((alGet u name).getD (-1)))) "oid"
    (max ts ((alGet u name).getD (-1)))

/-- The object's overall modification time, `updates["oid"]` (present from
construction on, objects.py:343-344, defaulting to 0). -/
def oidUpdate (u : UpdatesMap) : Int :=
  (alGet u "oid").getD 0

/-- Spec invariant 3: every recorded field timestamp is at most
`updates["oid"]`. -/
def updatesInv (u : UpdatesMap) : Prop :=
  ∀ p ∈ u, p.2 ≤ oidUpdate u

instance updatesInvDecidable (u : UpdatesMap) : Decidable (updatesInv u) :=
  decidable_of_iff (∀ p ∈ u, p.2 ≤ oidUpdate u) (by unfold updatesInv; exact Iff.rfl)

/-- C7 (amended: the invariant `updates[field] ≤ updates[oid]` is
preserved by `setProperty`/`setRelation` whenever the timestamp used — the
current clock, or an explicit `timestamp` argument — is at least the
object's current `updates["oid"]`; an explicit timestamp below
`updates["oid"]`, or an externally supplied `updates` map, can leave a
field timestamp above `updates["oid"]`, see the counterexample). -/
theorem claim_C7 (u : UpdatesMap) (name : String) (ts : Int)
    (hinv : updatesInv u) (hts : oidUpdate u ≤ ts) :
    updatesInv (bumpUpdate u name ts) := by
  intro p hp
  have hv : ts ≤ max ts ((alGet u name).getD (-1)) := le_max_left _ _
  have hoid : oidUpdate (bumpUpdate u name ts) = max ts ((alGet u name).getD (-1)) := by
    unfold oidUpdate bumpUpdate
    rw [alGet_alSet_self]
    rfl
  rw [hoid]
  rcases mem_alSet _ _ _ p hp with hcase | hcase
  · rw [hcase]
  · rcases mem_alSet _ _ _ p hcase with hcase2 | hcase2
    · rw [hcase2]
    · exact le_trans (le_trans (hinv p hcase2) hts) hv

/-- C7 counterexample: the updates map of a freshly constructed object
(`{"oid": 0}`) after `setProperty("a", ..., timestamp=100)` followed by
`setProperty("b", ..., timestamp=50)`. -/
def cexUpdates : UpdatesMap :=
  bumpUpdate (bumpUpdate [("oid", 0)] "a" 100) "b" 50

/-- C7 counterexample: setting field `a` at timestamp 100 and then field
`b` at timestamp 50 leaves `updates["a"] = 100 > 50 = updates["oid"]` —
the second assignment lowers `updates["oid"]` to
`max(50, updates.get("b", -1)) = 50`, so the claimed invariant fails for
operations given an explicit timestamp argument. -/
theorem claim_C7_counterexample :
    alGet cexUpdates "a" = some 100
    ∧ alGet cexUpdates "oid" = some 50
    ∧ ¬updatesInv cexUpdates := by
  refine ⟨by decide, by decide, ?_⟩
  intro h
  have := h ("a", 100) (by decide)
  revert this
  decide

/-- C7 witness: the amended theorem applied to the fresh map
`{"oid": 0}` with field `"a"` at timestamp 100. -/
theorem claim_C7_witness : updatesInv (bumpUpdate [("oid", 0)] "a" 100) :=
  claim_C7 [("oid", 0)] "a" 100 (by decide) (by decide)

/-!
## ObjectStorage (`objects.py:941-1231`) and StoredObject persistence

The object storage owns a backend (modelled with the dictionary semantics
of the reference `MemoryBackend`, including its key serialization) and a
weak-valued cache mapping storage keys to live objects.  Physical object
identity is modelled by numbering the objects as they are created: the
`heap` maps each object's identity to its exported data, and two results
are "the same physical object" exactly when they carry the same number.
The weak references of `_cache` and `_syncQueue` only disappear when no
strong reference to the object remains; the claims below are about
behaviour while a strong reference is held, so no eviction step is
modelled. -/

/-- The state of an `ObjectStorage` together with the live Python objects
bound to it.  `backendLog` records the write calls the backend received,
in order. -/
structure ObjectStorageState : Type where
  nextId : Nat
  heap : List (Nat × String)
  cache : List (String × Nat)
  syncQueue : List (String × Nat)
  backendStore : MemoryValues
  backendLog : List BackendOp
  deriving DecidableEq

/-- A fresh `ObjectStorage` over a fresh backend (objects.py:955-965). -/
def emptyObjectStorage : ObjectStorageState :=
  { nextId := 0, heap := [], cache := [], syncQueue := [], backendStore := []
    backendLog := [] }

/-- `StoredObject.StorageKey` (objects.py:204-213): `collection + "." + oid`. -/
def storageKey (collection oid : String) : String :=
  collection ++ "." ++ oid

/-- `ObjectStorage.register` (objects.py:967-983): put the object in the
cache under its storage key — and, when it is not a restored object, in
the sync queue as well. -/
def osRegister (s : ObjectStorageState) (key : String) (objId : Nat)
    (restored : Bool) : ObjectStorageState :=
  { s with
    syncQueue := if restored then s.syncQueue else alSet s.syncQueue key objId
    cache := alSet s.cache key objId }

/-- `StoredObject.__init__` (objects.py:308-347) for a class bound to a
storage: allocate the object (a fresh physical identity holding `data`),
then `self.STORAGE.register(self, restored=restored)` — so the object is
in the cache before the constructor returns.  Returns the new state and
the identity of the constructed object. -/
def osConstruct (s : ObjectStorageState) (key data : String) (restored : Bool) :
    ObjectStorageState × Nat :=
  (osRegister { s with nextId := s.nextId + 1, heap := alSet s.heap s.nextId data }
      key s.nextId restored,
    s.nextId)

/-- `ObjectStorage.has` (objects.py:1089-1099): the cache is consulted
first, then the backend. -/
def osHas (s : ObjectStorageState) (key : String) : Bool :=
  alHas s.cache key || memoryHas s.backendStore key

/-- `ObjectStorage.add` (objects.py:1009-1043) for an object with no
declared indexes: export the object, store it with `backend.add` when
`creation` is true and `backend.update` otherwise, and (re-)cache it. -/
def osAdd (s : ObjectStorageState) (key : String) (objId : Nat)
    (creation : Bool) : ObjectStorageState :=
  { s with
    backendStore :=
      if creation then memoryAdd s.backendStore key ((alGet s.heap objId).getD "")
      else memoryUpdate s.backendStore key ((alGet s.heap objId).getD "")
    backendLog := s.backendLog ++
      [if creation then BackendOp.add key ((alGet s.heap objId).getD "")
       else BackendOp.update key ((alGet s.heap objId).getD "")]
    cache := alSet s.cache key objId }

/-- `StoredObject.save` (objects.py:517-526) for the live object `objId`
with storage key `key`: `storage.update(self)` when `storage.has(key)`,
`storage.create(self)` otherwise — `create`/`update` being
`add(obj, creation=True/False)` (objects.py:1045-1053). -/
def objSave (s : ObjectStorageState) (key : String) (objId : Nat) :
    ObjectStorageState :=
  if osHas s key then osAdd s key objId false else osAdd s key objId true

/-- `ObjectStorage.get`/`_get` (objects.py:1055-1087): a cache hit returns
the cached live object with the state untouched; on a miss the primitive
is fetched from the backend (a stored export is a non-empty dict, so
Python's `if value:` is presence) and `_restore` (objects.py:985-1007)
instantiates the declared class with `restored=True` — the constructor
registers the new object in the cache, and `_get` caches it once more;
a key absent from cache and backend yields `None`. -/
def osGet (s : ObjectStorageState) (key : String) :
    ObjectStorageState × Option Nat :=
  match alGet s.cache key with
  | some objId => (s, some objId)
  | none =>
      match memoryGet s.backendStore key with
      | some data =>
          ({ (osConstruct s key data true).1 with
              cache := alSet (osConstruct s key data true).1.cache key
                (osConstruct s key data true).2 },
            some (osConstruct s key data true).2)
      | none => (s, none)

theorem osGet_cache_after (s : ObjectStorageState) (key : String)
    (s' : ObjectStorageState) (objId : Nat) (h : osGet s key = (s', some objId)) :
    alGet s'.cache key = some objId := by
  cases hc : alGet s.cache key with
  | some i =>
      have hval : osGet s key = (s, some i) := by simp [osGet, hc]
      rw [hval, Prod.mk.injEq] at h
      obtain ⟨hs, hid⟩ := h
      injection hid with hid
      subst hs
      subst hid
      exact hc
  | none =>
      cases hb : memoryGet s.backendStore key with
      | none =>
          have hval : osGet s key = (s, none) := by simp [osGet, hc, hb]
          rw [hval, Prod.mk.injEq] at h
          exact absurd h.2 (by simp)
      | some data =>
          have hval : osGet s key =
              ({ (osConstruct s key data true).1 with
                  cache := alSet (osConstruct s key data true).1.cache key
                    (osConstruct s key data true).2 },
                some (osConstruct s key data true).2) := by
            simp [osGet, hc, hb]
          rw [hval, Prod.mk.injEq] at h
          obtain ⟨hs, hid⟩ := h
          injection hid with hid
          rw [← hs, ← hid]
          exact alGet_alSet_self _ key _

/-- C1: while a strong reference keeps the object alive (no weak-cache
eviction), repeated `get(k)` returns the same physical object: a cache hit
returns the cached instance and leaves the state untouched; an object
constructed (or restored) while bound to the storage is registered in the
cache before its constructor returns, so a subsequent `get(k)` returns
exactly that instance; and any successful `get(k)` leaves the returned
object cached, so the next `get(k)` returns the same physical object. -/
theorem claim_C1 (s : ObjectStorageState) (key : String) :
    (∀ objId, alGet s.cache key = some objId → osGet s key = (s, some objId))
    ∧ (∀ data restored,
        alGet (osConstruct s key data restored).1.cache key
          = some (osConstruct s key data restored).2
        ∧ osGet (osConstruct s key data restored).1 key
          = ((osConstruct s key data restored).1, some (osConstruct s key data restored).2))
    ∧ (∀ s' objId, osGet s key = (s', some objId) → osGet s' key = (s', some objId)) := by
  refine ⟨?_, ?_, ?_⟩
  · intro objId h
    simp [osGet, h]
  · intro data restored
    have hc : alGet (osConstruct s key data restored).1.cache key
        = some (osConstruct s key data restored).2 := by
      show alGet (alSet _ key s.nextId) key = some s.nextId
      exact alGet_alSet_self _ key s.nextId
    exact ⟨hc, by simp [osGet, hc]⟩
  · intro s' objId h
    have hcached := osGet_cache_after s key s' objId h
    simp [osGet, hcached]

/-- The C1 witness state: a storage whose cache holds the live object `7`
under key `"A.1"`. -/
def c1WitnessState : ObjectStorageState :=
  { nextId := 8, heap := [(7, "x")], cache := [(storageKey "A" "1", 7)],
    syncQueue := [], backendStore := [], backendLog := [] }

/-- C1 witness: `get("A.1")` on `c1WitnessState` returns the cached
instance `7` and leaves the state untouched. -/
theorem claim_C1_witness :
    osGet c1WitnessState (storageKey "A" "1") = (c1WitnessState, some 7) :=
  (claim_C1 c1WitnessState (storageKey "A" "1")).1 7 (by decide)

/-- C2 (amended: the first `save()` of an object constructed while bound
to a storage takes the UPDATE path, not the create path — construction
registers the object in the storage's cache, and `save` decides
create-vs-update through `storage.has`, which consults the cache before
the backend, so it finds the object and calls `storage.update`;
`backend.add` is reached only for a key that is neither cached nor present
in the backend.  Every subsequent `save()` invokes `backend.update`, as
claimed). -/
theorem claim_C2 (s : ObjectStorageState) (key : String) (objId : Nat) :
    (alHas s.cache key = true →
      (objSave s key objId).backendLog
        = s.backendLog ++ [BackendOp.update key ((alGet s.heap objId).getD "")]
      ∧ alHas (objSave s key objId).cache key = true)
    ∧ (alHas s.cache key = false → memoryHas s.backendStore key = false →
      (objSave s key objId).backendLog
        = s.backendLog ++ [BackendOp.add key ((alGet s.heap objId).getD "")])
    ∧ (∀ data restored, alHas (osConstruct s key data restored).1.cache key = true) := by
  refine ⟨?_, ?_, ?_⟩
  · intro hcache
    have hhas : osHas s key = true := by simp [osHas, hcache]
    constructor
    · simp [objSave, hhas, osAdd]
    · have : (objSave s key objId).cache = alSet s.cache key objId := by
        simp [objSave, hhas, osAdd]
      simp [alHas, this, alGet_alSet_self]
  · intro hcache hbackend
    have hhas : osHas s key = false := by simp [osHas, hcache, hbackend]
    simp [objSave, hhas, osAdd]
  · intro data restored
    show alHas (alSet _ key s.nextId) key = true
    simp [alHas, alGet_alSet_self]

/-- C2 counterexample: construct an object with storage key `"A.1"` and
export `"x"` in a fresh storage (so it is registered in the cache), then
save it twice — both saves call `backend.update`; the first save does not
call `backend.add`, contradicting the claim. -/
theorem claim_C2_counterexample :
    (objSave (osConstruct emptyObjectStorage (storageKey "A" "1") "x" false).1
        (storageKey "A" "1")
        (osConstruct emptyObjectStorage (storageKey "A" "1") "x" false).2).backendLog
      = [BackendOp.update (storageKey "A" "1") "x"]
    ∧ (objSave
        (objSave (osConstruct emptyObjectStorage (storageKey "A" "1") "x" false).1
          (storageKey "A" "1")
          (osConstruct emptyObjectStorage (storageKey "A" "1") "x" false).2)
        (storageKey "A" "1")
        (osConstruct emptyObjectStorage (storageKey "A" "1") "x" false).2).backendLog
      = [BackendOp.update (storageKey "A" "1") "x",
         BackendOp.update (storageKey "A" "1") "x"]
    ∧ BackendOp.update (storageKey "A" "1") "x"
        ≠ BackendOp.add (storageKey "A" "1") "x" := by
  refine ⟨by decide, by decide, by decide⟩

/-- The C2 witness state: a storage whose cache holds the live object `0`
(export `"x"`) under key `"A.1"`. -/
def c2WitnessState : ObjectStorageState :=
  { nextId := 1, heap := [(0, "x")], cache := [(storageKey "A" "1", 0)],
    syncQueue := [], backendStore := [], backendLog := [] }

/-- C2 witness: on `c2WitnessState`, whose object is cached, `save`
appends a `backend.update` call. -/
theorem claim_C2_witness :
    (objSave c2WitnessState (storageKey "A" "1") 0).backendLog
      = [BackendOp.update (storageKey "A" "1") "x"] := by
  have h := (claim_C2 c2WitnessState (storageKey "A" "1") 0).1 (by decide)
  rw [h.1]
  rfl

end Storage
